import Mathlib

/-!
Shallow embedding of the metachat chat-service core: the repository layer
(`internal/repository`, the SQL store over the `chats` and `messages` tables)
and the service layer (`internal/service/chat_service.go`).

Modelling conventions:
* Timestamps are `Nat`; Go's zero `time.Time` is `0` and SQL `NOW()` is an
  explicit `now : Nat` argument.
* Identifiers are `String`, compared with the string order (UUIDs in their
  canonical text form compare the same way byte-wise).
* The two tables are Lean lists in scan (insertion) order; a SQL
  `ORDER BY key DESC` is modelled as a stable insertion sort over scan order,
  which keeps equal-key rows in scan order.
* `uuid.New()` is modelled by an explicit fresh-identifier argument.
* A Go `(value, error)` return plus the implicit database mutation becomes
  `Except ChatError value × DB`.
-/

namespace MetaChat

/-- Row of the `chats` table (`models.Chat`). -/
structure Chat where
  id : String
  userID1 : String
  userID2 : String
  createdAt : Nat
  updatedAt : Nat
deriving Repr, DecidableEq

/-- Row of the `messages` table (`models.Message`); `readAt` is the nullable
`read_at` column. -/
structure Message where
  id : String
  chatID : String
  senderID : String
  content : String
  createdAt : Nat
  readAt : Option Nat
deriving Repr, DecidableEq

/-- The relational backing store: both tables, rows in scan (insertion)
order. -/
structure DB where
  chats : List Chat
  messages : List Message
deriving Repr, DecidableEq

/-- Error kinds of the service layer, keyed by the Go error messages:
`cannot create chat with yourself` (validation), `chat not found`
(not-found), `user is not a participant in this chat` (permission denied). -/
inductive ChatError where
  | validationError
  | notFound
  | permissionDenied
deriving Repr, DecidableEq

/-- WHERE clause of `GetChatByUsers`: the symmetric participant-pair match
`(user_id1 = $1 AND user_id2 = $2) OR (user_id1 = $2 AND user_id2 = $1)`. -/
def pairPred (u1 u2 : String) (c : Chat) : Bool :=
  (c.userID1 == u1 && c.userID2 == u2) || (c.userID1 == u2 && c.userID2 == u1)

/-- `chatRepository.GetChatByUsers`: first row matching the symmetric pair
predicate (`LIMIT 1` over scan order); `none` models the `sql.ErrNoRows` →
"chat not found" path. -/
def getChatByUsers (db : DB) (u1 u2 : String) : Option Chat :=
  db.chats.find? (pairPred u1 u2)

/-- `chatRepository.GetChatByID`: lookup by primary key. -/
def getChatByID (db : DB) (id : String) : Option Chat :=
  db.chats.find? (fun c => c.id == id)

/-- `chatRepository.CreateChat`: `INSERT .. ON CONFLICT (user_id1, user_id2)
DO UPDATE SET updated_at = NOW() RETURNING ..`. The conflict target is the
exact column-ordered pair, not the symmetric pair; the returned row is the
inserted or conflict-updated one. -/
def repoCreateChat (db : DB) (chat : Chat) (now : Nat) : Chat × DB :=
  match db.chats.find? (fun c => c.userID1 == chat.userID1 && c.userID2 == chat.userID2) with
  | some existing =>
      ({ existing with updatedAt := now },
       { db with chats := db.chats.map (fun c =>
           if c.userID1 == chat.userID1 && c.userID2 == chat.userID2 then
             { c with updatedAt := now }
           else c) })
  | none => (chat, { db with chats := db.chats ++ [chat] })

/-- Stable insert for `ORDER BY updated_at DESC`: an earlier-scanned row stays
ahead of any row with an equal key. -/
def insertChatDesc (c : Chat) : List Chat → List Chat
  | [] => [c]
  | d :: ds =>
      if d.updatedAt ≤ c.updatedAt then c :: d :: ds else d :: insertChatDesc c ds

/-- Stable sort of chat rows by `updated_at` descending. -/
def sortChatsDesc : List Chat → List Chat
  | [] => []
  | c :: cs => insertChatDesc c (sortChatsDesc cs)

/-- `chatRepository.GetUserChats`: `WHERE user_id1 = $1 OR user_id2 = $1
ORDER BY updated_at DESC`. SQL leaves the order of equal-key rows
unspecified; it is modelled here as a stable sort over scan order. The query
text contains no tiebreak key. -/
def getUserChats (db : DB) (userID : String) : List Chat :=
  sortChatsDesc (db.chats.filter (fun c => c.userID1 == userID || c.userID2 == userID))

/-- Stable insert for `ORDER BY created_at DESC` on message rows. -/
def insertMsgDesc (m : Message) : List Message → List Message
  | [] => [m]
  | d :: ds =>
      if d.createdAt ≤ m.createdAt then m :: d :: ds else d :: insertMsgDesc m ds

/-- Stable sort of message rows by `created_at` descending. -/
def sortMsgsDesc : List Message → List Message
  | [] => []
  | m :: ms => insertMsgDesc m (sortMsgsDesc ms)

/-- `chatRepository.GetChatMessages`: with a non-empty cursor the WHERE clause
is `chat_id = $1 AND id < $2` — an identifier comparison, not a `created_at`
comparison; then `ORDER BY created_at DESC LIMIT $3`, and the Go loop at the
end reverses the page into ascending order. Without a cursor the filter is
only `chat_id = $1`. -/
def getChatMessages (db : DB) (chatID : String) (limit : Nat) (beforeMessageID : String) :
    List Message :=
  if beforeMessageID ≠ "" then
    ((sortMsgsDesc (db.messages.filter
        (fun m => m.chatID == chatID && decide (m.id < beforeMessageID)))).take limit).reverse
  else
    ((sortMsgsDesc (db.messages.filter (fun m => m.chatID == chatID))).take limit).reverse

/-- Row predicate of `MarkMessagesAsRead`'s UPDATE:
`chat_id = $1 AND sender_id != $2 AND read_at IS NULL`. -/
def unreadPred (chatID userID : String) (m : Message) : Bool :=
  m.chatID == chatID && m.senderID != userID && m.readAt == none

/-- `chatRepository.MarkMessagesAsRead`: `UPDATE .. SET read_at = NOW() ..
RETURNING id`; the returned count is the number of updated rows. -/
def repoMarkMessagesAsRead (db : DB) (chatID userID : String) (now : Nat) : Nat × DB :=
  ((db.messages.filter (unreadPred chatID userID)).length,
   { db with messages := db.messages.map (fun m =>
       if unreadPred chatID userID m then { m with readAt := some now } else m) })

/-- `chatRepository.CreateMessage`: INSERT the message row as given, then the
best-effort `UPDATE chats SET updated_at = NOW() WHERE id = chat_id`. -/
def repoCreateMessage (db : DB) (msg : Message) (now : Nat) : Message × DB :=
  (msg,
   { chats := db.chats.map (fun c =>
       if c.id == msg.chatID then { c with updatedAt := now } else c),
     messages := db.messages ++ [msg] })

/-- `chatService.CreateChat`. `freshID` models `uuid.New()`. When the
symmetric lookup finds an existing chat the service returns it as-is; on the
insert path the new row carries Go zero timestamps, because the code passes
the zero `time.Time` fields of the freshly built struct to the INSERT. -/
def serviceCreateChat (db : DB) (userID1 userID2 freshID : String) (now : Nat) :
    Except ChatError Chat × DB :=
  if userID1 == userID2 then (Except.error ChatError.validationError, db)
  else
    match getChatByUsers db userID1 userID2 with
    | some existing => (Except.ok existing, db)
    | none =>
        let chat : Chat :=
          { id := freshID, userID1 := userID1, userID2 := userID2,
            createdAt := 0, updatedAt := 0 }
        let r := repoCreateChat db chat now
        (Except.ok r.1, r.2)

/-- `chatService.SendMessage`: loads the chat (`chat not found` on a miss),
rejects a sender that is neither participant, otherwise builds the message
(zero `CreatedAt`, as in the code) and delegates to the repository. -/
def serviceSendMessage (db : DB) (chatID senderID content freshID : String) (now : Nat) :
    Except ChatError Message × DB :=
  match getChatByID db chatID with
  | none => (Except.error ChatError.notFound, db)
  | some chat =>
      if chat.userID1 != senderID && chat.userID2 != senderID then
        (Except.error ChatError.permissionDenied, db)
      else
        let msg : Message :=
          { id := freshID, chatID := chatID, senderID := senderID,
            content := content, createdAt := 0, readAt := none }
        let r := repoCreateMessage db msg now
        (Except.ok r.1, r.2)

/-- `chatService.GetChatMessages`: clamps the limit (`≤ 0` → 50, `> 100` →
100) and delegates; there is no chat-existence or participant check on this
path, and the in-memory query itself cannot fail. -/
def serviceGetChatMessages (db : DB) (chatID : String) (limit : Int) (beforeMessageID : String) :
    Except ChatError (List Message) :=
  let l1 : Int := if limit ≤ 0 then 50 else limit
  let l2 : Int := if l1 > 100 then 100 else l1
  Except.ok (getChatMessages db chatID l2.toNat beforeMessageID)

/-- `chatService.MarkMessagesAsRead`: loads the chat (`chat not found` on a
miss), rejects a reader that is neither participant, otherwise delegates. -/
def serviceMarkMessagesAsRead (db : DB) (chatID userID : String) (now : Nat) :
    Except ChatError Nat × DB :=
  match getChatByID db chatID with
  | none => (Except.error ChatError.notFound, db)
  | some chat =>
      if chat.userID1 != userID && chat.userID2 != userID then
        (Except.error ChatError.permissionDenied, db)
      else
        let r := repoMarkMessagesAsRead db chatID userID now
        (Except.ok r.1, r.2)

/-- Number of positions whose read timestamp transitioned from null to set
between two pointwise-corresponding message tables. -/
def transitionCount (pre post : List Message) : Nat :=
  ((pre.zip post).filter (fun p => p.1.readAt == none && p.2.readAt != none)).length

/-! Helper lemmas. -/

lemma getChatMessages_no_rows (db : DB) (chatID : String) (limit : Nat) (before : String)
    (href : ∀ m ∈ db.messages, m.chatID ≠ chatID) :
    getChatMessages db chatID limit before = [] := by
  unfold getChatMessages
  have h1 : db.messages.filter (fun m => m.chatID == chatID && decide (m.id < before)) = [] := by
    rw [List.filter_eq_nil_iff]
    intro m hm
    simp [href m hm]
  have h2 : db.messages.filter (fun m => m.chatID == chatID) = [] := by
    rw [List.filter_eq_nil_iff]
    intro m hm
    simp [href m hm]
  by_cases hb : before ≠ ""
  · simp only [if_pos hb, h1, sortMsgsDesc, List.take_nil, List.reverse_nil]
  · simp only [if_neg hb, h2, sortMsgsDesc, List.take_nil, List.reverse_nil]

lemma transitionCount_mark (chatID userID : String) (now : Nat) (l : List Message) :
    transitionCount l (l.map (fun m =>
      if unreadPred chatID userID m then { m with readAt := some now } else m)) =
    (l.filter (unreadPred chatID userID)).length := by
  induction l with
  | nil => rfl
  | cons m ms ih =>
      by_cases hu : unreadPred chatID userID m
      · have hnone : m.readAt = none := by
          have h := hu
          simp [unreadPred] at h
          exact h.2
        simp only [List.map_cons, if_pos hu, transitionCount, List.zip_cons_cons,
          List.filter_cons, hu, hnone]
        simp only [transitionCount] at ih
        simp [ih]
      · have hf : (if unreadPred chatID userID m then { m with readAt := some now } else m) = m :=
          if_neg hu
        simp only [List.map_cons, hf, transitionCount, List.zip_cons_cons, List.filter_cons]
        have hhead : (m.readAt == none && m.readAt != none) = false := by
          cases h : m.readAt <;> simp
        simp only [hhead, Bool.false_eq_true, if_false, eq_false_of_ne_true hu]
        simp only [transitionCount] at ih
        simp [ih]

lemma unreadPred_after_mark (chatID userID : String) (now : Nat) (l : List Message) :
    ∀ m ∈ l.map (fun m =>
      if unreadPred chatID userID m then { m with readAt := some now } else m),
      unreadPred chatID userID m = false := by
  intro m hm
  rcases List.mem_map.mp hm with ⟨m0, _, rfl⟩
  by_cases hu : unreadPred chatID userID m0
  · rw [if_pos hu]
    simp [unreadPred]
  · rw [if_neg hu]
    exact eq_false_of_ne_true hu

lemma find?_congr_pred {α : Type} {p q : α → Bool} (h : ∀ x, p x = q x) (l : List α) :
    l.find? p = l.find? q := by
  induction l with
  | nil => rfl
  | cons x xs ih =>
      by_cases hq : q x = true
      · rw [List.find?_cons_of_pos xs (by rw [h x]; exact hq),
          List.find?_cons_of_pos xs hq]
      · rw [List.find?_cons_of_neg xs (by rw [h x]; exact hq),
          List.find?_cons_of_neg xs hq, ih]

lemma pairPred_comm (a b : String) (c : Chat) : pairPred a b c = pairPred b a c := by
  simp [pairPred, Bool.or_comm]

lemma getChatByUsers_swap (db : DB) (a b : String) :
    getChatByUsers db b a = getChatByUsers db a b :=
  find?_congr_pred (fun c => pairPred_comm b a c) db.chats

lemma insertMsgDesc_of_forall (m : Message) (l : List Message)
    (h : ∀ d ∈ l, ¬ d.createdAt ≤ m.createdAt) : insertMsgDesc m l = l ++ [m] := by
  induction l with
  | nil => rfl
  | cons d ds ih =>
      rw [insertMsgDesc, if_neg (h d (List.mem_cons_self d ds)),
        ih (fun x hx => h x (List.mem_cons_of_mem d hx))]
      rfl

lemma sortMsgsDesc_of_increasing (l : List Message)
    (h : l.Pairwise (fun x y => x.createdAt < y.createdAt)) :
    sortMsgsDesc l = l.reverse := by
  induction l with
  | nil => rfl
  | cons m ms ih =>
      rw [sortMsgsDesc, ih (List.pairwise_cons.mp h).2,
        insertMsgDesc_of_forall m ms.reverse ?_, List.reverse_cons]
      intro d hd
      have := (List.pairwise_cons.mp h).1 d (List.mem_reverse.mp hd)
      omega

lemma filter_lt_id_eq_take (L : List Message)
    (hp : L.Pairwise (fun x y => x.id < y.id)) :
    ∀ (j : Nat) (hj : j < L.length),
      L.filter (fun m => decide (m.id < (L.get ⟨j, hj⟩).id)) = L.take j := by
  induction L with
  | nil =>
      intro j hj
      simp at hj
  | cons x xs ih =>
      intro j hj
      cases j with
      | zero =>
          simp only [List.get_cons_zero, List.take_zero]
          rw [List.filter_eq_nil_iff]
          intro m hm
          simp only [decide_eq_true_eq]
          rcases List.mem_cons.mp hm with rfl | hmem
          · exact lt_irrefl _
          · exact not_lt.mpr (le_of_lt ((List.pairwise_cons.mp hp).1 m hmem))
      | succ j =>
          simp only [List.get_cons_succ]
          have hj' : j < xs.length := by simpa using hj
          rw [List.filter_cons]
          have hx : x.id < (xs.get ⟨j, hj'⟩).id :=
            (List.pairwise_cons.mp hp).1 _ (xs.get_mem j hj')
          rw [if_pos (by simpa using hx), ih (List.pairwise_cons.mp hp).2 j hj',
            List.take_succ_cons]

lemma pairwise_take_lt_get {R : Message → Message → Prop} (L : List Message)
    (hp : L.Pairwise R) :
    ∀ (j : Nat) (hj : j < L.length), ∀ m ∈ L.take j, R m (L.get ⟨j, hj⟩) := by
  induction L with
  | nil =>
      intro j hj
      simp at hj
  | cons x xs ih =>
      intro j hj m hm
      cases j with
      | zero => simp at hm
      | succ j =>
          simp only [List.get_cons_succ]
          rw [List.take_succ_cons] at hm
          rcases List.mem_cons.mp hm with rfl | hmem
          · exact (List.pairwise_cons.mp hp).1 _ (xs.get_mem _ _)
          · exact ih (List.pairwise_cons.mp hp).2 j (by simpa using hj) m hmem

/-! Claim C3. -/

/-- C3: for a chat whose messages were stored in strictly increasing
creation-time order, `listMessages(chat, limit = N)` with no cursor returns
exactly those `N` messages in ascending chronological order: the query
selects descending by `created_at`, truncates to the limit, and the result is
the reverse of that selection. -/
theorem getChatMessages_full_ascending (db : DB) (chatID : String) (L : List Message)
    (hL : db.messages.filter (fun m => m.chatID == chatID) = L)
    (htime : L.Pairwise (fun x y => x.createdAt < y.createdAt)) :
    getChatMessages db chatID L.length "" = L := by
  unfold getChatMessages
  rw [if_neg (by simp), hL, sortMsgsDesc_of_increasing L htime,
    List.take_of_length_le (by simp), List.reverse_reverse]

def dbW3 : DB :=
  { chats := [{ id := "c3", userID1 := "a", userID2 := "b", createdAt := 0, updatedAt := 0 }],
    messages :=
      [{ id := "x1", chatID := "c3", senderID := "a", content := "one",
         createdAt := 1, readAt := none },
       { id := "x2", chatID := "c3", senderID := "b", content := "two",
         createdAt := 2, readAt := none },
       { id := "x3", chatID := "c3", senderID := "a", content := "three",
         createdAt := 3, readAt := none }] }

/-- Witness for `getChatMessages_full_ascending`: three messages at times
`1 < 2 < 3`, listed with `limit = 3` and no cursor. -/
theorem getChatMessages_full_ascending_witness :
    dbW3.messages.filter (fun m => m.chatID == "c3") = dbW3.messages ∧
    dbW3.messages.Pairwise (fun x y => x.createdAt < y.createdAt) ∧
    getChatMessages dbW3 "c3" dbW3.messages.length "" = dbW3.messages :=
  ⟨by rfl, by decide,
    getChatMessages_full_ascending dbW3 "c3" dbW3.messages (by rfl) (by decide)⟩

/-! Claim C2. -/

def msgOld2 : Message :=
  { id := "b", chatID := "c2", senderID := "u", content := "first",
    createdAt := 1, readAt := none }

def msgNew2 : Message :=
  { id := "a", chatID := "c2", senderID := "v", content := "second",
    createdAt := 2, readAt := none }

def dbC2 : DB :=
  { chats := [{ id := "c2", userID1 := "u", userID2 := "v", createdAt := 0, updatedAt := 0 }],
    messages := [msgOld2, msgNew2] }

/-- C2 counterexample: the chat holds two messages inserted in increasing
creation-time order, the older with id `b`, the newer with id `a` (UUIDs are
random, so ids need not follow creation order). Paging with
`limit = 1, before = msgNew2.id` must, per the claim, return the one message
immediately preceding `msgNew2` — `msgOld2` — but the query compares message
identifiers (`id < 'a'`), not creation times, and returns the empty page. -/
theorem getChatMessages_cursor_counterexample :
    msgOld2.createdAt < msgNew2.createdAt ∧
    dbC2.messages.filter (fun m => m.chatID == "c2") = [msgOld2, msgNew2] ∧
    getChatMessages dbC2 "c2" 1 msgNew2.id = [] ∧ [] ≠ [msgOld2] := by
  have hba : ¬ (("b" : String) < "a") := by
    rw [String.lt_iff_toList_lt]
    decide
  have haa : ¬ (("a" : String) < "a") := by
    rw [String.lt_iff_toList_lt]
    decide
  refine ⟨by decide, by rfl, ?_, by decide⟩
  show getChatMessages dbC2 "c2" 1 "a" = []
  unfold getChatMessages
  rw [if_pos (by decide)]
  simp [dbC2, msgOld2, msgNew2, hba, haa, sortMsgsDesc]

/-- C2 amended: under the additional hypothesis that message identifiers are
strictly increasing along creation order (the spec's "monotonically orderable
by creation time" assumption on ids, which random UUIDs do not satisfy),
paging with `limit = k, before = mJ.id` returns exactly the `min(k, J-1)`
messages immediately preceding `mJ`, oldest-first, and every returned message
was created strictly before `mJ`. Here `j` is the zero-based index of `mJ` in
the chat's messages `L`, so the page is `(L.take j).drop (j - k)`. -/
theorem getChatMessages_cursor_page (db : DB) (chatID : String) (L : List Message)
    (k j : Nat)
    (hL : db.messages.filter (fun m => m.chatID == chatID) = L)
    (htime : L.Pairwise (fun x y => x.createdAt < y.createdAt))
    (hid : L.Pairwise (fun x y => x.id < y.id))
    (hj : j < L.length)
    (hcur : (L.get ⟨j, hj⟩).id ≠ "") :
    getChatMessages db chatID k (L.get ⟨j, hj⟩).id = (L.take j).drop (j - k) ∧
    ∀ m ∈ getChatMessages db chatID k (L.get ⟨j, hj⟩).id,
      m.createdAt < (L.get ⟨j, hj⟩).createdAt := by
  have hcomm : db.messages.filter
      (fun m => m.chatID == chatID && decide (m.id < (L.get ⟨j, hj⟩).id)) =
      db.messages.filter
        (fun m => decide (m.id < (L.get ⟨j, hj⟩).id) && (m.chatID == chatID)) :=
    List.filter_congr (fun m _ => Bool.and_comm _ _)
  have hfilter : db.messages.filter
      (fun m => m.chatID == chatID && decide (m.id < (L.get ⟨j, hj⟩).id)) = L.take j := by
    rw [hcomm, ← List.filter_filter, hL, filter_lt_id_eq_take L hid j hj]
  have hmain : getChatMessages db chatID k (L.get ⟨j, hj⟩).id = (L.take j).drop (j - k) := by
    unfold getChatMessages
    rw [if_pos hcur, hfilter,
      sortMsgsDesc_of_increasing _ (List.Pairwise.sublist (List.take_sublist j L) htime),
      List.take_reverse, List.reverse_reverse, List.length_take]
    congr 1
    omega
  refine ⟨hmain, ?_⟩
  intro m hm
  rw [hmain] at hm
  exact pairwise_take_lt_get L htime j hj m (List.mem_of_mem_drop hm)

def dbW2 : DB :=
  { chats := [{ id := "cw", userID1 := "a", userID2 := "b", createdAt := 0, updatedAt := 0 }],
    messages :=
      [{ id := "i1", chatID := "cw", senderID := "a", content := "one",
         createdAt := 1, readAt := none },
       { id := "i2", chatID := "cw", senderID := "b", content := "two",
         createdAt := 2, readAt := none },
       { id := "i3", chatID := "cw", senderID := "a", content := "three",
         createdAt := 3, readAt := none }] }

lemma dbW2_pairwise_id : dbW2.messages.Pairwise (fun x y => x.id < y.id) := by
  simp [dbW2, List.pairwise_cons]
  decide

/-- Witness for `getChatMessages_cursor_page`: three messages with ids and
times both increasing; paging with `limit = 1` before the third returns
exactly the second. -/
theorem getChatMessages_cursor_page_witness :
    dbW2.messages.filter (fun m => m.chatID == "cw") = dbW2.messages ∧
    dbW2.messages.Pairwise (fun x y => x.createdAt < y.createdAt) ∧
    dbW2.messages.Pairwise (fun x y => x.id < y.id) ∧
    (dbW2.messages.get ⟨2, by decide⟩).id ≠ "" ∧
    (getChatMessages dbW2 "cw" 1 (dbW2.messages.get ⟨2, by decide⟩).id =
      (dbW2.messages.take 2).drop (2 - 1) ∧
    ∀ m ∈ getChatMessages dbW2 "cw" 1 (dbW2.messages.get ⟨2, by decide⟩).id,
      m.createdAt < (dbW2.messages.get ⟨2, by decide⟩).createdAt) :=
  ⟨by rfl, by decide, dbW2_pairwise_id, by decide,
    getChatMessages_cursor_page dbW2 "cw" dbW2.messages 1 2 (by rfl) (by decide)
      dbW2_pairwise_id (by decide) (by decide)⟩

lemma insertChatDesc_perm (c : Chat) (l : List Chat) :
    (insertChatDesc c l).Perm (c :: l) := by
  induction l with
  | nil => exact List.Perm.refl [c]
  | cons d ds ih =>
      rw [insertChatDesc]
      by_cases h : d.updatedAt ≤ c.updatedAt
      · rw [if_pos h]
      · rw [if_neg h]
        exact List.Perm.trans (ih.cons d) (List.Perm.swap c d ds)

lemma sortChatsDesc_perm (l : List Chat) : (sortChatsDesc l).Perm l := by
  induction l with
  | nil => exact List.Perm.refl []
  | cons c cs ih =>
      rw [sortChatsDesc]
      exact (insertChatDesc_perm c (sortChatsDesc cs)).trans (ih.cons c)

lemma insertChatDesc_pairwise (c : Chat) (l : List Chat)
    (hl : l.Pairwise (fun x y => y.updatedAt ≤ x.updatedAt)) :
    (insertChatDesc c l).Pairwise (fun x y => y.updatedAt ≤ x.updatedAt) := by
  induction l with
  | nil => simp [insertChatDesc]
  | cons d ds ih =>
      rw [insertChatDesc]
      by_cases h : d.updatedAt ≤ c.updatedAt
      · rw [if_pos h]
        refine List.pairwise_cons.mpr ⟨?_, hl⟩
        intro y hy
        rcases List.mem_cons.mp hy with rfl | hmem
        · exact h
        · exact le_trans ((List.pairwise_cons.mp hl).1 y hmem) h
      · rw [if_neg h]
        refine List.pairwise_cons.mpr ⟨?_, ih (List.pairwise_cons.mp hl).2⟩
        intro y hy
        rcases List.mem_cons.mp ((insertChatDesc_perm c ds).mem_iff.mp hy) with rfl | hmem2
        · omega
        · exact (List.pairwise_cons.mp hl).1 y hmem2

lemma sortChatsDesc_pairwise (l : List Chat) :
    (sortChatsDesc l).Pairwise (fun x y => y.updatedAt ≤ x.updatedAt) := by
  induction l with
  | nil => simp [sortChatsDesc]
  | cons c cs ih => exact insertChatDesc_pairwise c _ ih

/-! Claim C7. -/

def chatTieB : Chat := { id := "b", userID1 := "u", userID2 := "v", createdAt := 0, updatedAt := 5 }

def chatTieA : Chat := { id := "a", userID1 := "u", userID2 := "w", createdAt := 0, updatedAt := 5 }

def dbC7 : DB := { chats := [chatTieB, chatTieA], messages := [] }

/-- C7 counterexample: two chats of user `u` share `updatedAt = 5`. The query
orders only by `updated_at DESC` (equal keys stay in scan order — the query
text has no tiebreak key at all), so the result lists chat id `b` before chat
id `a`, while the claimed id tiebreak would have to order `a` first. -/
theorem getUserChats_no_id_tiebreak :
    getUserChats dbC7 "u" = [chatTieB, chatTieA] ∧
    chatTieB.updatedAt = chatTieA.updatedAt ∧
    chatTieA.id < chatTieB.id ∧ chatTieA ≠ chatTieB := by
  refine ⟨by rfl, by rfl, ?_, by decide⟩
  rw [String.lt_iff_toList_lt]
  decide

/-- C7 amended: `listChatsForUser(userId)` returns exactly the chats in which
the user is either participant, ordered by `updatedAt` descending; chats with
equal `updatedAt` keep the backing store's scan order — the code provides no
chat-id tiebreak. -/
theorem getUserChats_sorted_by_updatedAt (db : DB) (u : String) :
    (getUserChats db u).Perm
      (db.chats.filter (fun c => c.userID1 == u || c.userID2 == u)) ∧
    (getUserChats db u).Pairwise (fun x y => y.updatedAt ≤ x.updatedAt) ∧
    ∀ c, c ∈ getUserChats db u ↔ c ∈ db.chats ∧ (c.userID1 = u ∨ c.userID2 = u) := by
  refine ⟨sortChatsDesc_perm _, sortChatsDesc_pairwise _, ?_⟩
  intro c
  rw [show getUserChats db u =
        sortChatsDesc (db.chats.filter (fun c => c.userID1 == u || c.userID2 == u)) from rfl,
    (sortChatsDesc_perm _).mem_iff, List.mem_filter]
  simp

/-! Claim C1. -/

/-- C1: for distinct users `a` and `b`, calling `createChat` twice from a
store holding at most one chat for the unordered pair — the second call in
the same or swapped argument order, with no operation in between — returns a
chat with the same chat id both times, and afterwards at most one chat record
exists for the unordered pair. -/
theorem createChat_pair_idempotent (db : DB) (a b a2 b2 f1 f2 : String) (t1 t2 : Nat)
    (hab : a ≠ b)
    (hswap : (a2 = a ∧ b2 = b) ∨ (a2 = b ∧ b2 = a))
    (hinv : (db.chats.filter (pairPred a b)).length ≤ 1) :
    ∃ c1 c2,
      (serviceCreateChat db a b f1 t1).1 = Except.ok c1 ∧
      (serviceCreateChat (serviceCreateChat db a b f1 t1).2 a2 b2 f2 t2).1 = Except.ok c2 ∧
      c1.id = c2.id ∧
      ((serviceCreateChat (serviceCreateChat db a b f1 t1).2 a2 b2 f2 t2).2.chats.filter
        (pairPred a b)).length ≤ 1 := by
  have hne : (a == b) = false := by simp [hab]
  have hne2 : (a2 == b2) = false := by
    rcases hswap with ⟨h1, h2⟩ | ⟨h1, h2⟩ <;> rw [h1, h2] <;> simp [hab, Ne.symm hab]
  have hlookup2 : ∀ d : DB, getChatByUsers d a2 b2 = getChatByUsers d a b := by
    intro d
    rcases hswap with ⟨h1, h2⟩ | ⟨h1, h2⟩
    · rw [h1, h2]
    · rw [h1, h2]
      exact getChatByUsers_swap d a b
  cases hfind : getChatByUsers db a b with
  | some c =>
      have h1 : serviceCreateChat db a b f1 t1 = (Except.ok c, db) := by
        simp [serviceCreateChat, hne, hfind]
      have h2 : serviceCreateChat db a2 b2 f2 t2 = (Except.ok c, db) := by
        simp [serviceCreateChat, hne2, hlookup2 db, hfind]
      refine ⟨c, c, ?_, ?_, rfl, ?_⟩ <;> simp [h1, h2, hinv]
  | none =>
      have hnone : ∀ x ∈ db.chats, ¬ pairPred a b x := by
        simpa [getChatByUsers] using List.find?_eq_none.mp hfind
      set chat0 : Chat :=
        { id := f1, userID1 := a, userID2 := b, createdAt := 0, updatedAt := 0 } with hchat0
      have hexact : db.chats.find? (fun c => c.userID1 == a && c.userID2 == b) = none := by
        rw [List.find?_eq_none]
        intro x hx hxe
        exact hnone x hx (by simp only [pairPred, hxe, Bool.true_or])
      have hpp : pairPred a b chat0 = true := by simp [pairPred, hchat0]
      have h1 : serviceCreateChat db a b f1 t1 =
          (Except.ok chat0, { db with chats := db.chats ++ [chat0] }) := by
        simp [serviceCreateChat, hne, hfind, repoCreateChat, hexact, hchat0]
      have hfind1 : getChatByUsers { db with chats := db.chats ++ [chat0] } a b = some chat0 := by
        show (db.chats ++ [chat0]).find? (pairPred a b) = some chat0
        rw [List.find?_append]
        have : db.chats.find? (pairPred a b) = none := hfind
        rw [this]
        simp [hpp]
      have h2 : serviceCreateChat { db with chats := db.chats ++ [chat0] } a2 b2 f2 t2 =
          (Except.ok chat0, { db with chats := db.chats ++ [chat0] }) := by
        simp [serviceCreateChat, hne2, hlookup2, hfind1]
      have hfilter : (db.chats ++ [chat0]).filter (pairPred a b) = [chat0] := by
        rw [List.filter_append, List.filter_eq_nil_iff.mpr hnone]
        simp [hpp]
      refine ⟨chat0, chat0, ?_, ?_, rfl, ?_⟩
      · simp [h1]
      · simp [h1, h2]
      · simp [h1, h2, hfilter]

def dbEmptyC1 : DB := { chats := [], messages := [] }

/-- Witness for `createChat_pair_idempotent`: an empty store, first call
`createChat(a, b)`, second call with swapped arguments `createChat(b, a)`. -/
theorem createChat_pair_idempotent_witness :
    ("a" : String) ≠ "b" ∧
    ((("b" : String) = "a" ∧ ("a" : String) = "b") ∨
      (("b" : String) = "b" ∧ ("a" : String) = "a")) ∧
    (dbEmptyC1.chats.filter (pairPred "a" "b")).length ≤ 1 ∧
    ∃ c1 c2,
      (serviceCreateChat dbEmptyC1 "a" "b" "f1" 1).1 = Except.ok c1 ∧
      (serviceCreateChat (serviceCreateChat dbEmptyC1 "a" "b" "f1" 1).2 "b" "a" "f2" 2).1 =
        Except.ok c2 ∧
      c1.id = c2.id ∧
      ((serviceCreateChat (serviceCreateChat dbEmptyC1 "a" "b" "f1" 1).2 "b" "a" "f2" 2).2.chats.filter
        (pairPred "a" "b")).length ≤ 1 :=
  ⟨by decide, by decide, by decide,
    createChat_pair_idempotent dbEmptyC1 "a" "b" "b" "a" "f1" "f2" 1 2
      (by decide) (by decide) (by decide)⟩

/-! Claim C4. -/

/-- C4: for every existing chat and every participant reader, after
`markMessagesAsRead(chat, reader)` every stored message of that chat whose
sender is not the reader has a non-null `readAt`; the returned count is
exactly the number of messages whose `readAt` transitioned from null to set;
and an immediately repeated call returns `0` and leaves the store unchanged. -/
theorem markMessagesAsRead_correct (db : DB) (chatID userID : String) (chat : Chat)
    (t1 t2 : Nat)
    (hchat : getChatByID db chatID = some chat)
    (hpart : chat.userID1 = userID ∨ chat.userID2 = userID) :
    (serviceMarkMessagesAsRead db chatID userID t1).1 =
      Except.ok (transitionCount db.messages
        (serviceMarkMessagesAsRead db chatID userID t1).2.messages) ∧
    (∀ m ∈ (serviceMarkMessagesAsRead db chatID userID t1).2.messages,
        m.chatID = chatID → m.senderID ≠ userID → m.readAt ≠ none) ∧
    serviceMarkMessagesAsRead (serviceMarkMessagesAsRead db chatID userID t1).2 chatID userID t2 =
      (Except.ok 0, (serviceMarkMessagesAsRead db chatID userID t1).2) := by
  have hcond : (chat.userID1 != userID && chat.userID2 != userID) = false := by
    rcases hpart with h | h <;> simp [h]
  have hservice : serviceMarkMessagesAsRead db chatID userID t1 =
      (Except.ok ((db.messages.filter (unreadPred chatID userID)).length),
       { db with messages := db.messages.map (fun m =>
           if unreadPred chatID userID m then { m with readAt := some t1 } else m) }) := by
    simp [serviceMarkMessagesAsRead, hchat, hcond, repoMarkMessagesAsRead]
  refine ⟨?_, ?_, ?_⟩
  · rw [hservice]
    simp only
    rw [transitionCount_mark]
  · rw [hservice]
    intro m hm hchatEq hsender
    rcases List.mem_map.mp hm with ⟨m0, _, rfl⟩
    by_cases hu : unreadPred chatID userID m0
    · rw [if_pos hu]
      simp
    · rw [if_neg hu] at hchatEq hsender ⊢
      have h := hu
      simp [unreadPred] at h
      exact h hchatEq hsender
  · rw [hservice]
    have hchats : ({ db with messages := db.messages.map (fun m =>
        if unreadPred chatID userID m then { m with readAt := some t1 } else m) } : DB).chats =
        db.chats := rfl
    have hchat2 : getChatByID { db with messages := db.messages.map (fun m =>
        if unreadPred chatID userID m then { m with readAt := some t1 } else m) } chatID =
        some chat := by
      simpa [getChatByID, hchats] using hchat
    have hall := unreadPred_after_mark chatID userID t1 db.messages
    have hfilter : (db.messages.map (fun m =>
        if unreadPred chatID userID m then { m with readAt := some t1 } else m)).filter
          (unreadPred chatID userID) = [] :=
      List.filter_eq_nil_iff.mpr (fun m hm => by simp [hall m hm])
    have hmap : (db.messages.map (fun m =>
        if unreadPred chatID userID m then { m with readAt := some t1 } else m)).map
          (fun m => if unreadPred chatID userID m then { m with readAt := some t2 } else m) =
        db.messages.map (fun m =>
          if unreadPred chatID userID m then { m with readAt := some t1 } else m) := by
      rw [List.map_congr_left (g := fun m => m), List.map_id']
      intro m hm
      exact if_neg (by simp [hall m hm])
    simp [serviceMarkMessagesAsRead, hchat2, hcond, repoMarkMessagesAsRead, hfilter, hmap]

def chatW4 : Chat := { id := "c4", userID1 := "a", userID2 := "b", createdAt := 0, updatedAt := 0 }

def dbW4 : DB :=
  { chats := [chatW4],
    messages :=
      [{ id := "m1", chatID := "c4", senderID := "a", content := "hi",
         createdAt := 1, readAt := none },
       { id := "m2", chatID := "c4", senderID := "b", content := "yo",
         createdAt := 2, readAt := none }] }

/-- Witness for `markMessagesAsRead_correct`: participant `a` marks the chat
`c4` as read at time `9`, then again at time `11`. -/
theorem markMessagesAsRead_correct_witness :
    getChatByID dbW4 "c4" = some chatW4 ∧
    (chatW4.userID1 = "a" ∨ chatW4.userID2 = "a") ∧
    ((serviceMarkMessagesAsRead dbW4 "c4" "a" 9).1 =
      Except.ok (transitionCount dbW4.messages
        (serviceMarkMessagesAsRead dbW4 "c4" "a" 9).2.messages) ∧
    (∀ m ∈ (serviceMarkMessagesAsRead dbW4 "c4" "a" 9).2.messages,
        m.chatID = "c4" → m.senderID ≠ "a" → m.readAt ≠ none) ∧
    serviceMarkMessagesAsRead (serviceMarkMessagesAsRead dbW4 "c4" "a" 9).2 "c4" "a" 11 =
      (Except.ok 0, (serviceMarkMessagesAsRead dbW4 "c4" "a" 9).2)) :=
  ⟨by rfl, by decide,
    markMessagesAsRead_correct dbW4 "c4" "a" chatW4 9 11 (by rfl) (by decide)⟩

/-! Claim C8. -/

/-- C8: for every user identifier `x`, `createChat(x, x)` fails with the
validation error and the store is unchanged, so no chat record is created. -/
theorem createChat_self_validation_error (db : DB) (x freshID : String) (now : Nat) :
    serviceCreateChat db x x freshID now = (Except.error ChatError.validationError, db) := by
  simp [serviceCreateChat]

/-! Claim C5. -/

def chatC5 : Chat := { id := "c1", userID1 := "a", userID2 := "b", createdAt := 0, updatedAt := 5 }

def dbC5 : DB := { chats := [chatC5], messages := [] }

/-- C5 counterexample: with an existing chat for `{a, b}` whose `updatedAt` is
`5`, calling `createChat(a, b)` at time `10` returns the existing chat with
`updatedAt` still `5`, not refreshed to the current time `10`: the service
short-circuits on the symmetric lookup and never reaches the repository's
`ON CONFLICT .. SET updated_at = NOW()` path. -/
theorem createChat_existing_stale_updatedAt :
    serviceCreateChat dbC5 "a" "b" "f1" 10 = (Except.ok chatC5, dbC5) ∧
    chatC5.updatedAt = 5 ∧ (5 : Nat) ≠ 10 :=
  ⟨rfl, rfl, by decide⟩

/-- C5 amended: for every pair of distinct users for which a chat already
exists, `createChat(a, b)` does not fail and returns the existing chat
unchanged — its `updatedAt` is not refreshed — and the store is unchanged. -/
theorem createChat_existing_returned_unchanged (db : DB) (a b freshID : String) (now : Nat)
    (c : Chat) (hab : a ≠ b) (hfound : getChatByUsers db a b = some c) :
    serviceCreateChat db a b freshID now = (Except.ok c, db) := by
  have hne : (a == b) = false := by simp [hab]
  simp [serviceCreateChat, hne, hfound]

/-- Witness for `createChat_existing_returned_unchanged` at the concrete
store `dbC5`. -/
theorem createChat_existing_returned_unchanged_witness :
    ("a" : String) ≠ "b" ∧ getChatByUsers dbC5 "a" "b" = some chatC5 ∧
    serviceCreateChat dbC5 "a" "b" "f1" 10 = (Except.ok chatC5, dbC5) :=
  ⟨by decide, by rfl,
    createChat_existing_returned_unchanged dbC5 "a" "b" "f1" 10 chatC5 (by decide) (by rfl)⟩

/-! Claim C6. -/

/-- C6: for every existing chat and every sender that is neither participant,
`sendMessage` fails with the permission-denied error and the store is
unchanged: no message is persisted and the chat's `updatedAt` is untouched. -/
theorem sendMessage_non_participant_denied (db : DB)
    (chatID senderID content freshID : String) (now : Nat) (chat : Chat)
    (hchat : getChatByID db chatID = some chat)
    (h1 : senderID ≠ chat.userID1) (h2 : senderID ≠ chat.userID2) :
    serviceSendMessage db chatID senderID content freshID now =
      (Except.error ChatError.permissionDenied, db) := by
  have hc1 : (chat.userID1 != senderID) = true := by simp [Ne.symm h1]
  have hc2 : (chat.userID2 != senderID) = true := by simp [Ne.symm h2]
  simp [serviceSendMessage, hchat, hc1, hc2]

def chatC6 : Chat := { id := "c6", userID1 := "a", userID2 := "b", createdAt := 0, updatedAt := 0 }

def dbC6 : DB := { chats := [chatC6], messages := [] }

/-- Witness for `sendMessage_non_participant_denied`: outsider `z` on the
chat between `a` and `b`. -/
theorem sendMessage_non_participant_denied_witness :
    getChatByID dbC6 "c6" = some chatC6 ∧ ("z" : String) ≠ chatC6.userID1 ∧
    ("z" : String) ≠ chatC6.userID2 ∧
    serviceSendMessage dbC6 "c6" "z" "hi" "m1" 3 =
      (Except.error ChatError.permissionDenied, dbC6) :=
  ⟨by rfl, by decide, by decide,
    sendMessage_non_participant_denied dbC6 "c6" "z" "hi" "m1" 3 chatC6
      (by rfl) (by decide) (by decide)⟩

/-! Claim C9. -/

def chatC9 : Chat := { id := "c9", userID1 := "a", userID2 := "b", createdAt := 0, updatedAt := 0 }

def dbC9 : DB := { chats := [chatC9], messages := [] }

def msgC9 : Message :=
  { id := "m1", chatID := "c9", senderID := "a", content := "", createdAt := 0, readAt := none }

/-- C9 counterexample: a participant sends a message with empty content and
the core persists it — the stored message's `content` field is the empty
string, so no non-emptiness invariant holds. Neither the service nor the
repository checks content. -/
theorem sendMessage_empty_content_persisted :
    serviceSendMessage dbC9 "c9" "a" "" "m1" 7 =
      (Except.ok msgC9,
       { chats := [{ id := "c9", userID1 := "a", userID2 := "b", createdAt := 0, updatedAt := 7 }],
         messages := [msgC9] }) ∧
    msgC9.content = "" :=
  ⟨rfl, rfl⟩

/-- C9 amended: a successful `sendMessage` by a participant persists exactly
one new message whose content is exactly the supplied content — which may be
empty; the core enforces no non-emptiness invariant on content. -/
theorem sendMessage_persists_given_content (db : DB)
    (chatID senderID content freshID : String) (now : Nat) (chat : Chat)
    (hchat : getChatByID db chatID = some chat)
    (hpart : chat.userID1 = senderID ∨ chat.userID2 = senderID) :
    ∃ m, (serviceSendMessage db chatID senderID content freshID now).1 = Except.ok m ∧
      m.content = content ∧
      (serviceSendMessage db chatID senderID content freshID now).2.messages =
        db.messages ++ [m] := by
  have hcond : (chat.userID1 != senderID && chat.userID2 != senderID) = false := by
    rcases hpart with h | h <;> simp [h]
  refine ⟨{ id := freshID, chatID := chatID, senderID := senderID,
            content := content, createdAt := 0, readAt := none }, ?_, rfl, ?_⟩ <;>
    simp [serviceSendMessage, hchat, hcond, repoCreateMessage]

/-- Witness for `sendMessage_persists_given_content`: participant `a` sending
empty content into the chat of `dbC9`. -/
theorem sendMessage_persists_given_content_witness :
    getChatByID dbC9 "c9" = some chatC9 ∧
    (chatC9.userID1 = "a" ∨ chatC9.userID2 = "a") ∧
    ∃ m, (serviceSendMessage dbC9 "c9" "a" "" "m1" 7).1 = Except.ok m ∧
      m.content = "" ∧
      (serviceSendMessage dbC9 "c9" "a" "" "m1" 7).2.messages = dbC9.messages ++ [m] :=
  ⟨by rfl, by decide,
    sendMessage_persists_given_content dbC9 "c9" "a" "" "m1" 7 chatC9 (by rfl) (by decide)⟩

/-! Claim C10. -/

/-- C10: for a `chatId` that references no existing chat (so, by the
referential integrity of the `messages.chat_id` foreign key, no message row
carries it), `getChatMessages` succeeds with the empty list rather than
failing with a not-found error; moreover the operation has no participant
check at all and never fails with the permission-denied error on any input. -/
theorem getChatMessages_missing_chat_ok_empty (db : DB) (chatID : String) (limit : Int)
    (before : String)
    (_hchat : getChatByID db chatID = none)
    (href : ∀ m ∈ db.messages, m.chatID ≠ chatID) :
    serviceGetChatMessages db chatID limit before = Except.ok [] ∧
    ∀ (db2 : DB) (c2 : String) (l2 : Int) (b2 : String),
      serviceGetChatMessages db2 c2 l2 b2 ≠ Except.error ChatError.permissionDenied := by
  constructor
  · unfold serviceGetChatMessages
    simp [getChatMessages_no_rows db chatID _ before href]
  · intro db2 c2 l2 b2
    unfold serviceGetChatMessages
    simp

def dbC10 : DB :=
  { chats := [{ id := "other", userID1 := "a", userID2 := "b", createdAt := 0, updatedAt := 0 }],
    messages := [{ id := "m1", chatID := "other", senderID := "a", content := "x",
                   createdAt := 1, readAt := none }] }

/-- Witness for `getChatMessages_missing_chat_ok_empty`: a store holding only
an unrelated chat and its message, queried for the absent chat id `ghost`. -/
theorem getChatMessages_missing_chat_ok_empty_witness :
    getChatByID dbC10 "ghost" = none ∧ (∀ m ∈ dbC10.messages, m.chatID ≠ "ghost") ∧
    serviceGetChatMessages dbC10 "ghost" 50 "" = Except.ok [] :=
  ⟨by rfl, by decide,
    (getChatMessages_missing_chat_ok_empty dbC10 "ghost" 50 "" (by rfl) (by decide)).1⟩

end MetaChat
